import Mathlib

/-!
Verification of the RHCC registry adapter (`apb/rhcc_registry.go`).

The Go source is shallowly embedded below.  Pure string manipulation
(`cleanHTTPURL`) and the control flow of `LoadSpecs` / `imageToSpec` /
`LoadImages` are translated directly.  External collaborators that are not
part of the repository (net/http, encoding/json, ioutil) are modelled as an
explicit environment of oracle functions (`Env`), so that every theorem
quantifies over their possible behaviours.  External codecs whose behaviour
the claims depend on intensionally (standard base64, the YAML document
format for Spec) are modelled as executable functions, faithful to their
documented contracts.  A Go slice index that can be out of range and a nil
pointer dereference are modelled by the `GoResult.crash` outcome, since Go
panics there instead of returning.
-/

namespace RHCC

/-- Errors of external collaborators are treated as opaque values; a string
is enough to distinguish them. -/
abbrev Err := String

/-- Byte strings (`[]byte` in Go); each entry is a byte value. -/
abbrev Bytes := List Nat

/-- Outcome of running a piece of Go code that can panic: either a runtime
crash (index out of range, nil dereference) or a normal return. -/
inductive GoResult (α : Type) where
  | crash : GoResult α
  | ok : α → GoResult α
deriving DecidableEq, Repr

/-- Embedding of Go `strings.HasPrefix` on character lists: `listHasPre s p`
holds when `p` is an initial segment of `s`. -/
def listHasPre : List Char → List Char → Bool
  | _, [] => true
  | [], _ :: _ => false
  | c :: s, p :: ps => c == p && listHasPre s ps

/-- Embedding of Go `strings.HasPrefix` on strings. -/
def hasPre (s p : String) : Bool := listHasPre s.data p.data

/-! ## Standard base64 (model of Go `encoding/base64` `StdEncoding`)

The standard alphabet, `=`-padded encoding of byte triples into sextet
characters, and the matching decoder.  Like Go's (non-strict) decoder, the
decoder rejects characters outside the alphabet, missing or misplaced
padding and non-multiple-of-4 lengths, but does not insist that unused
trailing bits be zero. -/

def b64Alphabet : List Char :=
  "ABCDEFGHIJKLMNOPQRSTUVWXYZabcdefghijklmnopqrstuvwxyz0123456789+/".data

/-- Character of a sextet value (0—63). -/
def sextetChar (n : Nat) : Char := b64Alphabet.getD n 'A'

/-- Value of an alphabet character; `none` for characters outside the
alphabet (including the padding character). -/
def sextetVal (c : Char) : Option Nat := b64Alphabet.indexOf? c

/-- Encode bytes into base64 characters, three bytes to four characters,
padding the final partial group with `=`. -/
def b64EncodeChunks : Bytes → List Char
  | [] => []
  | [a] => [sextetChar (a / 4), sextetChar (a % 4 * 16), '=', '=']
  | [a, b] => [sextetChar (a / 4), sextetChar (a % 4 * 16 + b / 16),
      sextetChar (b % 16 * 4), '=']
  | a :: b :: c :: rest =>
      sextetChar (a / 4) :: sextetChar (a % 4 * 16 + b / 16) ::
        sextetChar (b % 16 * 4 + c / 64) :: sextetChar (c % 64) ::
          b64EncodeChunks rest

/-- Decode base64 characters four at a time; padding is accepted only in the
last group. -/
def b64DecodeChunks : List Char → Option Bytes
  | [] => some []
  | ca :: cb :: cc :: cd :: rest =>
    match sextetVal ca, sextetVal cb with
    | some x, some y =>
      if cc = '=' then
        if cd = '=' then
          if rest = [] then some [x * 4 + y / 16] else none
        else none
      else
        match sextetVal cc with
        | some z =>
          if cd = '=' then
            if rest = [] then some [x * 4 + y / 16, y % 16 * 16 + z / 4]
            else none
          else
            match sextetVal cd with
            | some w =>
              (b64DecodeChunks rest).map
                (fun bs => (x * 4 + y / 16) :: (y % 16 * 16 + z / 4) ::
                  (z % 4 * 64 + w) :: bs)
            | none => none
        | none => none
    | _, _ => none
  | _ => none

/-- Model of `base64.StdEncoding.EncodeToString`. -/
def b64Encode (bs : Bytes) : String := String.mk (b64EncodeChunks bs)

/-- Model of `base64.StdEncoding.DecodeString`; `none` is the error case. -/
def b64Decode (s : String) : Option Bytes := b64DecodeChunks s.data

/-! ## Spec documents

Modelled from the spec: the `Spec` entity and the `yaml` document codec are
not part of the source fragment (the `Spec` type lives elsewhere in the
repository and yaml is an external library).  Per the spec, a Spec is "an
opaque structured document" with at least a name, produced by "any
well-formed document parser" for "a human-readable, indentation-based
serialization"; we model it as a small record with a line-per-field
serialization `key: value` and the matching parser. -/

/-- Modelled from the spec: the Spec entity (declared outside this source
fragment).  Carries the fields the spec's scenarios mention. -/
structure Spec where
  Name : String
  Description : String
  Version : String
deriving DecidableEq, Repr

/-- Field value usable in the line-based document format: no newline, and
every character fits in one byte. -/
def goodField (s : String) : Bool :=
  s.data.all (fun c => c != '\n' && c.toNat < 256)

/-- Documents whose three fields are serializable. -/
def wellFormedSpec (d : Spec) : Bool :=
  goodField d.Name && goodField d.Description && goodField d.Version

/-- Characters of the serialized document, one `key: value` line per field. -/
def specYamlChars (d : Spec) : List Char :=
  "name: ".data ++ d.Name.data ++ '\n' ::
    ("description: ".data ++ d.Description.data ++ '\n' ::
      ("version: ".data ++ d.Version.data))

/-- Modelled from the spec: serialization of a Spec document to bytes. -/
def serializeSpec (d : Spec) : Bytes := (specYamlChars d).map Char.toNat

/-- Split a character list at newline characters. -/
def splitLines : List Char → List (List Char)
  | [] => [[]]
  | c :: rest =>
    if c = '\n' then [] :: splitLines rest
    else
      match splitLines rest with
      | [] => [[c]]
      | l :: ls => (c :: l) :: ls

/-- Parse one `key: value` line into an update of the accumulated Spec. -/
def parseLine (acc : Spec) (line : List Char) : Except Err Spec :=
  if listHasPre line "name: ".data then
    .ok { acc with Name := String.mk (line.drop 6) }
  else if listHasPre line "description: ".data then
    .ok { acc with Description := String.mk (line.drop 13) }
  else if listHasPre line "version: ".data then
    .ok { acc with Version := String.mk (line.drop 9) }
  else .error "yaml: could not find expected key"

/-- Parse the lines in order, threading the accumulated Spec. -/
def parseLinesGo (acc : Spec) : List (List Char) → Except Err Spec
  | [] => .ok acc
  | l :: ls =>
    match parseLine acc l with
    | .error e => .error e
    | .ok acc2 => parseLinesGo acc2 ls

/-- Modelled from the spec: the document parser (`yaml.Unmarshal` in the
source).  Unknown keys fail; blank lines are ignored; missing keys leave the
zero value, matching unmarshalling into a zero Spec. -/
def parseSpecYaml (bs : Bytes) : Except Err Spec :=
  parseLinesGo ⟨"", "", ""⟩
    ((splitLines (bs.map (fun n => Char.ofNat n))).filter (fun l => !l.isEmpty))

/-! ## Registry data model (from `rhcc_registry.go`) -/

/-- Modelled from the spec: the registry endpoint configuration object
(declared outside this source fragment), "supplying at minimum a base URL";
only its `URL` field is consumed by this code. -/
structure RegistryConfig where
  URL : String
deriving DecidableEq, Repr

/-- Go `RHCCRegistry`: configuration plus a logger reference.  The logger is
an external collaborator with no behaviour the core depends on, so it is
kept as an opaque reference value. -/
structure RHCCRegistry where
  config : RegistryConfig
  log : Nat
deriving DecidableEq, Repr

/-- Go `Image`: one row of the RHCC search response. -/
structure Image where
  Description : String
  IsOfficial : Bool
  IsTrusted : Bool
  Name : String
  ShouldFilter : Bool
  StarCount : Int
deriving DecidableEq, Repr

/-- Go `ImageResponse`.  `Results` is `[]*Image` in Go, so each element is a
pointer that may be nil (`none`). -/
structure ImageResponse where
  NumResults : Int
  Query : String
  Results : List (Option Image)
deriving DecidableEq, Repr

/-- Go anonymous struct `label` inside `imageToSpec` (`Labels` values under
the two well-known keys). -/
structure LabelObj where
  Spec : String
  Version : String
deriving DecidableEq, Repr

/-- Go anonymous struct `config` inside `imageToSpec`. -/
structure ConfigObj where
  Label : LabelObj
deriving DecidableEq, Repr

/-- Go anonymous struct `hist`: the manifest's `history` field.  A `nil`
slice (field absent or null) is `none`; a present, possibly empty, sequence
of string-to-string maps is `some`. -/
structure HistObj where
  History : Option (List (List (String × String)))
deriving DecidableEq, Repr

/-- Go anonymous struct `conf`: `config` is `*config`, hence optional. -/
structure ConfObj where
  Config : Option ConfigObj
deriving DecidableEq, Repr

/-- Go `map[string]string` lookup: the zero value `""` when absent. -/
def mapGet (m : List (String × String)) (k : String) : String :=
  match m.find? (fun p => p.1 == k) with
  | some p => p.2
  | none => ""

/-- An HTTP request as built by `http.NewRequest` plus added headers. -/
structure HttpRequest where
  method : String
  url : String
  headers : List (String × String)
deriving DecidableEq, Repr

/-- Behaviour of the external collaborators (net/http, ioutil,
encoding/json), modelled as oracle functions so every theorem quantifies
over their possible behaviours:
* `newRequestErr method url` — error outcome of `http.NewRequest`;
* `transport` — `http.DefaultClient.Do` together with delivery of the
  response body bytes;
* `readAll` — `ioutil.ReadAll` on a body: the bytes obtained so far and an
  optional read error (Go returns both);
* `searchUnmarshal` — `json.Unmarshal` of bytes into `ImageResponse`;
* `histDecode` — `json.NewDecoder(body).Decode` into the `hist` struct;
* `confUnmarshal` — `json.Unmarshal` of the `v1Compatibility` string into
  the `conf` struct. -/
structure Env where
  newRequestErr : String → String → Option Err
  transport : HttpRequest → Except Err Bytes
  readAll : Bytes → Bytes × Option Err
  searchUnmarshal : Bytes → Except Err ImageResponse
  histDecode : Bytes → Except Err HistObj
  confUnmarshal : String → Except Err ConfObj

/-! ## Operations (direct translations of the Go functions) -/

/-- Go `Init` (pointer receiver): assigns the two fields and returns nil. -/
def Init (r : RHCCRegistry) (config : RegistryConfig) (log : Nat) :
    RHCCRegistry × Option Err :=
  ((fun _ => { config := config, log := log }) r, none)

/-- Go `cleanHTTPURL` (value receiver): returns the url unchanged when it
already starts with one of the two scheme strings, else prepends
`http://`. -/
def cleanHTTPURL (r : RHCCRegistry) (url : String) : String :=
  if hasPre url "http://" then url
  else if hasPre url "https://" then url
  else "http://" ++ url

/-- Go `LoadImages` (value receiver).  Returns the `(ImageResponse, error)`
pair together with the list of HTTP requests actually handed to the
transport (for stating how many requests are issued and with which URL).
Note the Go source discards the error of `ioutil.ReadAll`: `err` is
reassigned by the following `json.Unmarshal` without being checked. -/
def LoadImages (r : RHCCRegistry) (env : Env) (Query : String) :
    (ImageResponse × Option Err) × List HttpRequest :=
  let url := cleanHTTPURL r r.config.URL
  let reqURL := url ++ "/v1/search?q=" ++ Query
  match env.newRequestErr "GET" reqURL with
  | some e => ((⟨0, "", []⟩, some e), [])
  | none =>
    let req : HttpRequest := ⟨"GET", reqURL, []⟩
    match env.transport req with
    | .error e => ((⟨0, "", []⟩, some e), [req])
    | .ok body =>
      let imageList := (env.readAll body).1
      match env.searchUnmarshal imageList with
      | .error e => ((⟨0, "", []⟩, some e), [req])
      | .ok imageResp => ((imageResp, none), [req])

/-- Go `imageToSpec` (value receiver).  The argument is `*Image`, so `none`
is a nil pointer, dereferenced when building the URL; a present `history`
field with zero entries reaches the unguarded `hist.History[0]` index.
Both are runtime panics, modelled as `GoResult.crash`. -/
def imageToSpec (r : RHCCRegistry) (env : Env) (image : Option Image) :
    GoResult (Option Spec) :=
  match image with
  | none => .crash
  | some image =>
    let url := cleanHTTPURL r r.config.URL
    let reqURL := url ++ "/v2/" ++ image.Name ++ "/manifests/latest"
    match env.newRequestErr "GET" reqURL with
    | some _ => .ok none
    | none =>
      let req : HttpRequest := ⟨"GET", reqURL, [("Accept", "application/json")]⟩
      match env.transport req with
      | .error _ => .ok none
      | .ok body =>
        match env.histDecode body with
        | .error _ => .ok none
        | .ok hist =>
          match hist.History with
          | none => .ok none
          | some entries =>
            match entries with
            | [] => .crash
            | entry0 :: _ =>
              match env.confUnmarshal (mapGet entry0 "v1Compatibility") with
              | .error _ => .ok none
              | .ok conf =>
                match conf.Config with
                | none => .ok none
                | some cfg =>
                  let encodedSpec := cfg.Label.Spec
                  if encodedSpec.length == 0 then .ok none
                  else
                    match b64Decode encodedSpec with
                    | none => .ok none
                    | some decodedSpecYaml =>
                      match parseSpecYaml decodedSpecYaml with
                      | .error _ => .ok none
                      | .ok s => .ok (some s)

/-- The `for _, image := range imageList.Results` loop of `LoadSpecs`:
append each non-nil produced Spec pointer to the accumulator. -/
def specLoop (r : RHCCRegistry) (env : Env) :
    List (Option Image) → List (Option Spec) → GoResult (List (Option Spec))
  | [], specs => .ok specs
  | oimg :: rest, specs =>
    match imageToSpec r env oimg with
    | .crash => .crash
    | .ok ospec =>
      match ospec with
      | some _ => specLoop r env rest (specs ++ [ospec])
      | none => specLoop r env rest specs

/-- Result of `LoadSpecs` plus instrumentation: the queries passed to the
search resolver (`LoadImages`) and the HTTP requests the search issued. -/
structure LoadSpecsOut where
  result : GoResult (List (Option Spec) × Int × Option Err)
  searchCalls : List String
  searchRequests : List HttpRequest
deriving Repr

/-- Go `LoadSpecs` (value receiver): one search with the fixed query, then
the per-image loop; search failure returns the empty slice, zero and the
error. -/
def LoadSpecs (r : RHCCRegistry) (env : Env) : LoadSpecsOut :=
  match LoadImages r env "\"*-apb\"" with
  | ((_, some e), t) =>
    { result := .ok ([], 0, some e), searchCalls := ["\"*-apb\""],
      searchRequests := t }
  | ((imageList, none), t) =>
    let numResults := imageList.NumResults
    match specLoop r env imageList.Results [] with
    | .crash =>
      { result := .crash, searchCalls := ["\"*-apb\""], searchRequests := t }
    | .ok specs =>
      { result := .ok (specs, numResults, none),
        searchCalls := ["\"*-apb\""], searchRequests := t }

/-! ## Call semantics for the frame property

Go passes the receiver of `cleanHTTPURL`, `LoadSpecs`, `imageToSpec` and
`LoadImages` by value: the callee operates on a copy, so after any such
call the caller's registry variable is whatever it was before the call.
`runCalls` folds that calling convention over a sequence of calls. -/

inductive Call where
  | cleanURL (u : String)
  | loadSpecs (env : Env)
  | loadImages (env : Env) (q : String)
  | imgToSpec (env : Env) (i : Option Image)

/-- One method call on the registry: the method runs on a copy of `r`
(value receiver), and the caller keeps its own `r`. -/
def callStep (r : RHCCRegistry) (c : Call) : RHCCRegistry :=
  match c with
  | .cleanURL u => (fun _ => r) (cleanHTTPURL r u)
  | .loadSpecs env => (fun _ => r) (LoadSpecs r env)
  | .loadImages env q => (fun _ => r) (LoadImages r env q)
  | .imgToSpec env i => (fun _ => r) (imageToSpec r env i)

/-- Run a sequence of value-receiver calls against the registry. -/
def runCalls (r : RHCCRegistry) (cs : List Call) : RHCCRegistry :=
  cs.foldl callStep r

/-- The Spec pointer produced per image, as appended by the `LoadSpecs`
loop: `some (some s)` when `imageToSpec` returns a non-nil Spec, `none`
(nothing appended) otherwise. -/
def producedSpec (r : RHCCRegistry) (env : Env) (oimg : Option Image) :
    Option (Option Spec) :=
  match imageToSpec r env oimg with
  | .ok (some s) => some (some s)
  | _ => none

/-- Bytes of a string (UTF-8 agrees with code points for ASCII inputs). -/
def strBytes (s : String) : Bytes := s.data.map Char.toNat

/-! ## Concrete fixtures used to evaluate the model at specific inputs -/

/-- A registry initialised with a bare host name. -/
def regDemo : RHCCRegistry := ⟨⟨"registry.example.com"⟩, 0⟩

/-- An image row as returned by the search endpoint. -/
def imgDemo : Image := ⟨"", false, false, "foo-apb", false, 0⟩

/-- A well-formed Spec document. -/
def specDemo : Spec := ⟨"foo", "bar", "1.0"⟩

/-- An environment where the whole pipeline succeeds: the search reports
five total results but returns one summary, whose manifest carries the
base64-encoded serialization of `specDemo`. -/
def envDemo : Env :=
  { newRequestErr := fun _ _ => none
    transport := fun _ => .ok []
    readAll := fun b => (b, none)
    searchUnmarshal := fun _ => .ok ⟨5, "\"*-apb\"", [some imgDemo]⟩
    histDecode := fun _ => .ok ⟨some [[("v1Compatibility", "v1json")]]⟩
    confUnmarshal := fun _ =>
      .ok ⟨some ⟨⟨b64Encode (serializeSpec specDemo), "1.0"⟩⟩⟩ }

/-- Like `envDemo`, but the manifest decodes to a `history` field that is
present with zero entries (wire body `"history": []`). -/
def envEmptyHist : Env := { envDemo with histDecode := fun _ => .ok ⟨some []⟩ }

/-- Like `envDemo`, but the image's config labels carry an empty spec
label. -/
def envEmptyLabel : Env :=
  { envDemo with confUnmarshal := fun _ => .ok ⟨some ⟨⟨"", "1.0"⟩⟩⟩ }

/-- Like `envDemo`, but the spec label is not valid base64. -/
def envBadB64 : Env :=
  { envDemo with confUnmarshal := fun _ => .ok ⟨some ⟨⟨"!", "1.0"⟩⟩⟩ }

/-- An environment where the transport of the search call fails. -/
def envSearchFail : Env :=
  { envDemo with transport := fun _ => .error "connection refused" }

/-- An environment where the search body is delivered (a well-formed empty
JSON object), but `ioutil.ReadAll` also reports a read error; unmarshalling
the delivered bytes succeeds. -/
def envReadErr : Env :=
  { envDemo with
    transport := fun _ => .ok (strBytes "\x7b\x7d")
    readAll := fun b => (b, some "unexpected EOF")
    searchUnmarshal := fun bs =>
      if bs = strBytes "\x7b\x7d" then .ok ⟨0, "", []⟩
      else .error "invalid character" }

/-! ## Helper lemmas -/

theorem listHasPre_append (p s : List Char) : listHasPre (p ++ s) p = true := by
  induction p with
  | nil => cases s <;> rfl
  | cons c ps ih => simp [listHasPre, ih]

theorem hasPre_append (p s : String) : hasPre (p ++ s) p = true := by
  have h : (p ++ s).data = p.data ++ s.data := String.data_append p s
  simp only [hasPre, h]
  exact listHasPre_append p.data s.data

theorem sextet_rt : ∀ n < 64, sextetVal (sextetChar n) = some n := by decide

theorem sextetChar_ne_pad : ∀ n < 64, sextetChar n ≠ '=' := by decide

theorem b64_chunks_rt : ∀ bs : Bytes, (∀ x ∈ bs, x < 256) →
    b64DecodeChunks (b64EncodeChunks bs) = some bs
  | [], _ => by simp [b64EncodeChunks, b64DecodeChunks]
  | [a], h => by
    have ha : a < 256 := h a (by simp)
    have s0 := sextet_rt (a / 4) (by omega)
    have s1 := sextet_rt (a % 4 * 16) (by omega)
    simp only [b64EncodeChunks, b64DecodeChunks, s0, s1]
    simp
    omega
  | [a, b], h => by
    have ha : a < 256 := h a (by simp)
    have hb : b < 256 := h b (by simp)
    have s0 := sextet_rt (a / 4) (by omega)
    have s1 := sextet_rt (a % 4 * 16 + b / 16) (by omega)
    have s2 := sextet_rt (b % 16 * 4) (by omega)
    have n2 := sextetChar_ne_pad (b % 16 * 4) (by omega)
    simp only [b64EncodeChunks, b64DecodeChunks, s0, s1, s2]
    simp [n2]
    omega
  | a :: b :: c :: rest, h => by
    have ha : a < 256 := h a (by simp)
    have hb : b < 256 := h b (by simp)
    have hc : c < 256 := h c (by simp)
    have ih := b64_chunks_rt rest (fun x hx => h x (by simp [hx]))
    have s0 := sextet_rt (a / 4) (by omega)
    have s1 := sextet_rt (a % 4 * 16 + b / 16) (by omega)
    have s2 := sextet_rt (b % 16 * 4 + c / 64) (by omega)
    have s3 := sextet_rt (c % 64) (by omega)
    have n2 := sextetChar_ne_pad (b % 16 * 4 + c / 64) (by omega)
    have n3 := sextetChar_ne_pad (c % 64) (by omega)
    simp only [b64EncodeChunks, b64DecodeChunks, s0, s1, s2, s3,
      if_neg n2, if_neg n3, ih, Option.map_some]
    have e1 : a / 4 * 4 + (a % 4 * 16 + b / 16) / 16 = a := by omega
    have e2 : (a % 4 * 16 + b / 16) % 16 * 16 + (b % 16 * 4 + c / 64) / 4 = b := by
      omega
    have e3 : (b % 16 * 4 + c / 64) % 4 * 64 + c % 64 = c := by omega
    simp [e1, e2, e3]

theorem b64_rt (bs : Bytes) (h : ∀ x ∈ bs, x < 256) :
    b64Decode (b64Encode bs) = some bs := by
  simpa [b64Decode, b64Encode] using b64_chunks_rt bs h

theorem splitLines_no_newline (l : List Char) (h : '\n' ∉ l) :
    splitLines l = [l] := by
  induction l with
  | nil => rfl
  | cons c rest ih =>
    have hc : ¬(c = '\n') := fun e => h (e ▸ List.mem_cons_self c rest)
    have hr : '\n' ∉ rest := fun m => h (List.mem_cons_of_mem c m)
    simp [splitLines, hc, ih hr]

theorem splitLines_append (l rest : List Char) (h : '\n' ∉ l) :
    splitLines (l ++ '\n' :: rest) = l :: splitLines rest := by
  induction l with
  | nil => simp [splitLines]
  | cons c l' ih =>
    have hc : ¬(c = '\n') := fun e => h (e ▸ List.mem_cons_self c l')
    have hl : '\n' ∉ l' := fun m => h (List.mem_cons_of_mem c m)
    simp [splitLines, hc, ih hl]

theorem charMap_rt (l : List Char) :
    (l.map Char.toNat).map (fun n => Char.ofNat n) = l := by
  induction l with
  | nil => rfl
  | cons c rest ih => simp [ih, Char.ofNat_toNat]

theorem string_mk_data (s : String) : String.mk s.data = s := rfl

theorem parse_serialize_rt (d : Spec) (h : wellFormedSpec d = true) :
    parseSpecYaml (serializeSpec d) = .ok d := by
  obtain ⟨n, de, v⟩ := d
  simp only [wellFormedSpec, goodField, Bool.and_eq_true, List.all_eq_true,
    bne_iff_ne, decide_eq_true_eq] at h
  obtain ⟨⟨hn, hd⟩, hv⟩ := h
  have hnn : '\n' ∉ ("name: ".data ++ n.data) := by
    intro m
    rcases List.mem_append.mp m with m | m
    · revert m; decide
    · exact absurd rfl (hn _ m).1
  have hdn : '\n' ∉ ("description: ".data ++ de.data) := by
    intro m
    rcases List.mem_append.mp m with m | m
    · revert m; decide
    · exact absurd rfl (hd _ m).1
  have hvn : '\n' ∉ ("version: ".data ++ v.data) := by
    intro m
    rcases List.mem_append.mp m with m | m
    · revert m; decide
    · exact absurd rfl (hv _ m).1
  have hassoc : specYamlChars ⟨n, de, v⟩ =
      ("name: ".data ++ n.data) ++ '\n' ::
        (("description: ".data ++ de.data) ++ '\n' ::
          ("version: ".data ++ v.data)) := by
    simp [specYamlChars]
  simp only [parseSpecYaml, serializeSpec, charMap_rt]
  rw [hassoc, splitLines_append _ _ hnn, splitLines_append _ _ hdn,
    splitLines_no_newline _ hvn]
  have hfilter : List.filter (fun l => !l.isEmpty)
      [("name: ".data ++ n.data), ("description: ".data ++ de.data),
        ("version: ".data ++ v.data)] =
      [("name: ".data ++ n.data), ("description: ".data ++ de.data),
        ("version: ".data ++ v.data)] := rfl
  rw [hfilter]
  simp [parseLinesGo, parseLine, listHasPre, string_mk_data]

theorem serialize_bytes_lt (d : Spec) (h : wellFormedSpec d = true) :
    ∀ x ∈ serializeSpec d, x < 256 := by
  obtain ⟨n, de, v⟩ := d
  simp only [wellFormedSpec, goodField, Bool.and_eq_true, List.all_eq_true,
    bne_iff_ne, decide_eq_true_eq] at h
  obtain ⟨⟨hn, hd⟩, hv⟩ := h
  intro x hx
  simp only [serializeSpec, List.mem_map] at hx
  obtain ⟨c, hc, rfl⟩ := hx
  simp only [specYamlChars, List.mem_append, List.mem_cons] at hc
  casesm* _ ∨ _
  all_goals first
    | exact (hn _ ‹_›).2
    | exact (hd _ ‹_›).2
    | exact (hv _ ‹_›).2
    | (subst_vars; decide)
    | exact absurd ‹_ ∈ ([] : List Char)› (List.not_mem_nil _)

theorem callStep_id (r : RHCCRegistry) (c : Call) : callStep r c = r := by
  cases c <;> rfl

theorem runCalls_id : ∀ (cs : List Call) (r : RHCCRegistry),
    runCalls r cs = r := by
  intro cs
  induction cs with
  | nil => intro r; rfl
  | cons c cs ih =>
    intro r
    show runCalls (callStep r c) cs = r
    rw [callStep_id, ih]

theorem loadSpecs_result_of_err (r : RHCCRegistry) (env : Env) (e : Err)
    (h : (LoadImages r env "\"*-apb\"").1.2 = some e) :
    (LoadSpecs r env).result = .ok ([], 0, some e) := by
  rcases hLI : LoadImages r env "\"*-apb\"" with ⟨⟨resp, err⟩, t⟩
  rw [hLI] at h
  simp only at h
  subst h
  simp [LoadSpecs, hLI]

theorem loadSpecs_result_of_ok (r : RHCCRegistry) (env : Env)
    (resp : ImageResponse)
    (h : (LoadImages r env "\"*-apb\"").1 = (resp, none)) :
    (LoadSpecs r env).result =
      (match specLoop r env resp.Results [] with
       | .crash => .crash
       | .ok specs => .ok (specs, resp.NumResults, none)) := by
  rcases hLI : LoadImages r env "\"*-apb\"" with ⟨⟨resp', err⟩, t⟩
  rw [hLI] at h
  simp only [Prod.mk.injEq] at h
  obtain ⟨rfl, rfl⟩ := h
  simp only [LoadSpecs, hLI]
  cases specLoop r env resp'.Results [] <;> rfl

theorem specLoop_ok_eq (r : RHCCRegistry) (env : Env) :
    ∀ (l : List (Option Image)) (acc specs : List (Option Spec)),
      specLoop r env l acc = .ok specs →
      specs = acc ++ l.filterMap (producedSpec r env) := by
  intro l
  induction l with
  | nil =>
    intro acc specs h
    simp only [specLoop, GoResult.ok.injEq] at h
    simp [h]
  | cons oimg rest ih =>
    intro acc specs h
    simp only [specLoop] at h
    cases hi : imageToSpec r env oimg with
    | crash => rw [hi] at h; simp at h
    | ok ospec =>
      rw [hi] at h
      cases ospec with
      | some s =>
        have he := ih (acc ++ [some s]) specs h
        simp [he, producedSpec, hi, List.filterMap_cons]
      | none =>
        have he := ih acc specs h
        simp [he, producedSpec, hi, List.filterMap_cons]

theorem producedSpec_ne_none (r : RHCCRegistry) (env : Env)
    (oimg : Option Image) (x : Option Spec)
    (h : producedSpec r env oimg = some x) : x ≠ none := by
  unfold producedSpec at h
  cases hi : imageToSpec r env oimg with
  | crash => rw [hi] at h; cases h
  | ok ospec =>
    rw [hi] at h
    cases ospec with
    | some s => simp at h; simp [h.symm]
    | none => cases h

theorem string_len_zero (s : String) (h : s.length = 0) : s = "" := by
  cases s with
  | mk l =>
    cases l with
    | nil => rfl
    | cons c cs => simp [String.length] at h

theorem b64EncodeChunks_cons_ne (a : Nat) (bs : Bytes) :
    b64EncodeChunks (a :: bs) ≠ [] := by
  match bs with
  | [] => simp [b64EncodeChunks]
  | [b] => simp [b64EncodeChunks]
  | b :: c :: rest => simp [b64EncodeChunks]

theorem b64Encode_len_ne_zero (bs : Bytes) (h : bs ≠ []) :
    ((b64Encode bs).length == 0) = false := by
  match bs, h with
  | a :: bs, _ =>
    have hne := b64EncodeChunks_cons_ne a bs
    simp only [b64Encode, String.length]
    simpa [List.length_eq_zero] using hne

theorem serializeSpec_ne_nil (d : Spec) : serializeSpec d ≠ [] := by
  obtain ⟨n, de, v⟩ := d
  simp [serializeSpec, specYamlChars]

/-! ## Claims -/

/-- C1: the claim says a manifest whose `history` field is present but has
zero entries is a terminal per-image condition (no Spec, no out-of-range
access).  The code only guards `hist.History == nil` and then reads
`hist.History[0]` unguarded, so a present-but-empty history passes the
guard and the index is out of range: evaluated at such a response the
model reaches the crash outcome instead of returning absent. -/
theorem C1_empty_history_crash :
    envEmptyHist.histDecode [] = .ok ⟨some []⟩ ∧
    imageToSpec regDemo envEmptyHist (some imgDemo) = GoResult.crash :=
  ⟨rfl, by decide⟩

/-- C2: for every search response with `num_results = N` and `k ≤ N`
returned summaries, a `LoadSpecs` call that returns successfully reports
total `N`, whatever the per-image outcomes were. -/
theorem C2_total_is_num_results (r : RHCCRegistry) (env : Env)
    (resp : ImageResponse) (N : Int)
    (hsearch : (LoadImages r env "\"*-apb\"").1 = (resp, none))
    (hN : resp.NumResults = N)
    (hk : (resp.Results.length : Int) ≤ N)
    (specs : List (Option Spec)) (n : Int)
    (hok : (LoadSpecs r env).result = .ok (specs, n, none)) :
    n = N := by
  have h := loadSpecs_result_of_ok r env resp hsearch
  rw [hok] at h
  cases hsl : specLoop r env resp.Results [] with
  | crash => rw [hsl] at h; cases h
  | ok specs2 =>
    rw [hsl] at h
    simp only [GoResult.ok.injEq, Prod.mk.injEq] at h
    rw [← hN]
    exact h.2.1

theorem C2_total_is_num_results_witness :
    (LoadImages regDemo envDemo "\"*-apb\"").1 =
      (⟨5, "\"*-apb\"", [some imgDemo]⟩, none) ∧
    (LoadSpecs regDemo envDemo).result = .ok ([some specDemo], 5, none) ∧
    (5 : Int) = 5 :=
  ⟨by decide, by decide,
    C2_total_is_num_results regDemo envDemo ⟨5, "\"*-apb\"", [some imgDemo]⟩ 5
      (by decide) rfl (by decide) [some specDemo] 5 (by decide)⟩

/-- C3: a search failure makes `LoadSpecs` return the empty sequence, zero
and that error; and this is the only error it ever returns — whenever the
search succeeded, any returned triple carries a nil error, regardless of
the per-image outcomes. -/
theorem C3_only_search_error (r : RHCCRegistry) (env : Env) :
    (∀ e, (LoadImages r env "\"*-apb\"").1.2 = some e →
        (LoadSpecs r env).result = .ok ([], 0, some e)) ∧
    (∀ resp, (LoadImages r env "\"*-apb\"").1 = (resp, none) →
        ∀ specs n e, (LoadSpecs r env).result = .ok (specs, n, e) →
          e = none) := by
  constructor
  · intro e he
    exact loadSpecs_result_of_err r env e he
  · intro resp hresp specs n e hok
    have h := loadSpecs_result_of_ok r env resp hresp
    rw [hok] at h
    cases hsl : specLoop r env resp.Results [] with
    | crash => rw [hsl] at h; cases h
    | ok specs2 =>
      rw [hsl] at h
      simp only [GoResult.ok.injEq, Prod.mk.injEq] at h
      exact h.2.2

theorem C3_only_search_error_witness :
    (LoadImages regDemo envSearchFail "\"*-apb\"").1.2 =
        some "connection refused" ∧
    (LoadSpecs regDemo envSearchFail).result =
        .ok ([], 0, some "connection refused") :=
  ⟨by decide,
    (C3_only_search_error regDemo envSearchFail).1 "connection refused"
      (by decide)⟩

/-- C4 counterexample: the claim says every failure while obtaining or
reading the search response body is surfaced as an error.  The source
discards the error of `ioutil.ReadAll` (the `err` variable is reassigned
by `json.Unmarshal` without being checked), so a read failure whose
delivered bytes still unmarshal is silently dropped: here the read reports
an error, yet `LoadImages` returns a response with a nil error. -/
theorem C4_read_error_dropped :
    (envReadErr.readAll (strBytes "\x7b\x7d")).2 = some "unexpected EOF" ∧
    (LoadImages regDemo envReadErr "\"*-apb\"").1 = (⟨0, "", []⟩, none) :=
  ⟨rfl, by decide⟩

/-- C4 (amended): request-construction failures, transport failures and
unmarshal failures of the bytes obtained are surfaced (the returned error
is nil exactly when all three succeed), and every surfaced error comes
with the empty `ImageResponse`; but the error reported by reading the body
is itself discarded, influencing the outcome only through the bytes it
delivered to the unmarshal step. -/
theorem C4_error_surfacing (r : RHCCRegistry) (env : Env) (q : String) :
    ((LoadImages r env q).1.2 = none ↔
      env.newRequestErr "GET"
          (cleanHTTPURL r r.config.URL ++ "/v1/search?q=" ++ q) = none ∧
        ∃ body, env.transport
            ⟨"GET", cleanHTTPURL r r.config.URL ++ "/v1/search?q=" ++ q, []⟩
            = .ok body ∧
          ∃ resp, env.searchUnmarshal (env.readAll body).1 = .ok resp) ∧
    (∀ e, (LoadImages r env q).1.2 = some e →
      (LoadImages r env q).1.1 = ⟨0, "", []⟩) := by
  unfold LoadImages
  cases hn : env.newRequestErr "GET"
      (cleanHTTPURL r r.config.URL ++ "/v1/search?q=" ++ q) with
  | some e => simp [hn]
  | none =>
    cases ht : env.transport
        ⟨"GET", cleanHTTPURL r r.config.URL ++ "/v1/search?q=" ++ q, []⟩ with
    | error e => simp [hn, ht]
    | ok body =>
      cases hs : env.searchUnmarshal (env.readAll body).1 with
      | error e => simp [hn, ht, hs]
      | ok resp => simp [hn, ht, hs]

theorem C4_error_surfacing_witness :
    (LoadImages regDemo envReadErr "\"*-apb\"").1.2 = none :=
  (C4_error_surfacing regDemo envReadErr "\"*-apb\"").1.mpr
    ⟨rfl, strBytes "\x7b\x7d", rfl, ⟨0, "", []⟩, rfl⟩

/-- C5: `cleanHTTPURL` returns the url unchanged exactly when it starts
with one of the two scheme strings and prepends `http://` otherwise, and
it is idempotent. -/
theorem C5_clean_url (r : RHCCRegistry) (u : String) :
    cleanHTTPURL r u =
      (if hasPre u "http://" || hasPre u "https://" then u
       else "http://" ++ u) ∧
    cleanHTTPURL r (cleanHTTPURL r u) = cleanHTTPURL r u := by
  constructor
  · unfold cleanHTTPURL
    cases h1 : hasPre u "http://" <;> cases h2 : hasPre u "https://" <;>
      simp [h1, h2]
  · unfold cleanHTTPURL
    cases h1 : hasPre u "http://" <;> cases h2 : hasPre u "https://" <;>
      simp [h1, h2, hasPre_append]

/-- C6: round-trip — for every well-formed document `d`, an image whose
manifest pipeline delivers a spec label equal to the standard base64
encoding of the serialization of `d` yields, through `imageToSpec`,
exactly the Spec `d`. -/
theorem C6_label_roundtrip (r : RHCCRegistry) (env : Env) (img : Image)
    (d : Spec) (body : Bytes) (entry0 : List (String × String))
    (entries : List (List (String × String))) (cfg : ConfigObj)
    (hwf : wellFormedSpec d = true)
    (hreq : env.newRequestErr "GET"
      (cleanHTTPURL r r.config.URL ++ "/v2/" ++ img.Name ++
        "/manifests/latest") = none)
    (htr : env.transport
      ⟨"GET",
        cleanHTTPURL r r.config.URL ++ "/v2/" ++ img.Name ++
          "/manifests/latest",
        [("Accept", "application/json")]⟩ = .ok body)
    (hhist : env.histDecode body = .ok ⟨some (entry0 :: entries)⟩)
    (hconf : env.confUnmarshal (mapGet entry0 "v1Compatibility")
      = .ok ⟨some cfg⟩)
    (hlabel : cfg.Label.Spec = b64Encode (serializeSpec d)) :
    imageToSpec r env (some img) = .ok (some d) := by
  have hne : ((b64Encode (serializeSpec d)).length == 0) = false :=
    b64Encode_len_ne_zero _ (serializeSpec_ne_nil d)
  have hdec : b64Decode (b64Encode (serializeSpec d))
      = some (serializeSpec d) := b64_rt _ (serialize_bytes_lt d hwf)
  have hparse := parse_serialize_rt d hwf
  simp only [imageToSpec, hreq, htr, hhist, hconf, hlabel, hne, hdec, hparse]
  simp

theorem C6_label_roundtrip_witness :
    wellFormedSpec specDemo = true ∧
    imageToSpec regDemo envDemo (some imgDemo) = .ok (some specDemo) :=
  ⟨by decide,
    C6_label_roundtrip regDemo envDemo imgDemo specDemo []
      [("v1Compatibility", "v1json")] []
      ⟨⟨b64Encode (serializeSpec specDemo), "1.0"⟩⟩
      (by decide) rfl rfl rfl rfl rfl⟩

/-- C7: an image whose manifest pipeline reaches the label stage with an
empty spec label, or with a label that is not valid base64, yields no Spec
and no crash (`imageToSpec` returns nil), and dropping such an image from
the front of the batch leaves the processing of the remaining images
unchanged. -/
theorem C7_recoverable_skip (r : RHCCRegistry) (env : Env) (img : Image)
    (body : Bytes) (entry0 : List (String × String))
    (entries : List (List (String × String))) (cfg : ConfigObj)
    (hreq : env.newRequestErr "GET"
      (cleanHTTPURL r r.config.URL ++ "/v2/" ++ img.Name ++
        "/manifests/latest") = none)
    (htr : env.transport
      ⟨"GET",
        cleanHTTPURL r r.config.URL ++ "/v2/" ++ img.Name ++
          "/manifests/latest",
        [("Accept", "application/json")]⟩ = .ok body)
    (hhist : env.histDecode body = .ok ⟨some (entry0 :: entries)⟩)
    (hconf : env.confUnmarshal (mapGet entry0 "v1Compatibility")
      = .ok ⟨some cfg⟩)
    (hbad : cfg.Label.Spec = "" ∨ b64Decode cfg.Label.Spec = none) :
    imageToSpec r env (some img) = .ok none ∧
    ∀ (rest : List (Option Image)) (acc : List (Option Spec)),
      specLoop r env (some img :: rest) acc = specLoop r env rest acc := by
  have him : imageToSpec r env (some img) = .ok none := by
    rcases hbad with hb | hb
    · simp [imageToSpec, hreq, htr, hhist, hconf, hb]
    · by_cases hz : cfg.Label.Spec = ""
      · rw [hz] at hb
        simp [b64Decode, b64DecodeChunks] at hb
      · have hlen : (cfg.Label.Spec.length == 0) = false := by
          have hnz : cfg.Label.Spec.length ≠ 0 :=
            fun h0 => hz (string_len_zero _ h0)
          simpa using hnz
        simp [imageToSpec, hreq, htr, hhist, hconf, hlen, hb]
  refine ⟨him, fun rest acc => ?_⟩
  simp [specLoop, him]

theorem C7_recoverable_skip_witness :
    imageToSpec regDemo envEmptyLabel (some imgDemo) = .ok none ∧
    b64Decode "!" = none ∧
    imageToSpec regDemo envBadB64 (some imgDemo) = .ok none ∧
    specLoop regDemo envEmptyLabel [some imgDemo, some imgDemo] [] =
      specLoop regDemo envEmptyLabel [some imgDemo] [] :=
  ⟨(C7_recoverable_skip regDemo envEmptyLabel imgDemo []
      [("v1Compatibility", "v1json")] [] ⟨⟨"", "1.0"⟩⟩
      rfl rfl rfl rfl (Or.inl rfl)).1,
   by decide,
   (C7_recoverable_skip regDemo envBadB64 imgDemo []
      [("v1Compatibility", "v1json")] [] ⟨⟨"!", "1.0"⟩⟩
      rfl rfl rfl rfl (Or.inr (by decide))).1,
   (C7_recoverable_skip regDemo envEmptyLabel imgDemo []
      [("v1Compatibility", "v1json")] [] ⟨⟨"", "1.0"⟩⟩
      rfl rfl rfl rfl (Or.inl rfl)).2 [some imgDemo] []⟩

/-- C8: `LoadSpecs` passes exactly one query to the search resolver, the
literal `"*-apb"` wrapped in quote characters, its search requests are
exactly the ones that single `LoadImages` call issued, and for every query
`LoadImages` issues at most the single request whose URL is the plain
concatenation `<base>/v1/search?q=<query>` with no escaping applied. -/
theorem C8_search_query (r : RHCCRegistry) (env : Env) :
    (LoadSpecs r env).searchCalls = ["\"*-apb\""] ∧
    (LoadSpecs r env).searchRequests = (LoadImages r env "\"*-apb\"").2 ∧
    ∀ q : String, (LoadImages r env q).2 =
      (match env.newRequestErr "GET"
          (cleanHTTPURL r r.config.URL ++ "/v1/search?q=" ++ q) with
       | some _ => []
       | none =>
         [⟨"GET", cleanHTTPURL r r.config.URL ++ "/v1/search?q=" ++ q,
           []⟩]) := by
  refine ⟨?_, ?_, ?_⟩
  · rcases hLI : LoadImages r env "\"*-apb\"" with ⟨⟨resp, err⟩, t⟩
    cases err with
    | none =>
      simp only [LoadSpecs, hLI]
      cases specLoop r env resp.Results [] <;> rfl
    | some e => simp [LoadSpecs, hLI]
  · rcases hLI : LoadImages r env "\"*-apb\"" with ⟨⟨resp, err⟩, t⟩
    cases err with
    | none =>
      simp only [LoadSpecs, hLI]
      cases specLoop r env resp.Results [] <;> rfl
    | some e => simp [LoadSpecs, hLI]
  · intro q
    unfold LoadImages
    cases hn : env.newRequestErr "GET"
        (cleanHTTPURL r r.config.URL ++ "/v1/search?q=" ++ q) with
    | some e => simp [hn]
    | none =>
      cases ht : env.transport
          ⟨"GET", cleanHTTPURL r r.config.URL ++ "/v1/search?q=" ++ q,
            []⟩ with
      | error e => simp [hn, ht]
      | ok body =>
        cases hs : env.searchUnmarshal (env.readAll body).1 with
        | error e => simp [hn, ht, hs]
        | ok resp => simp [hn, ht, hs]

/-- C9: `Init` sets exactly the configuration and logger it was given (and
returns nil), and since every other operation takes the receiver by value,
no sequence of `cleanHTTPURL` / `LoadSpecs` / `LoadImages` / `imageToSpec`
calls changes the registry from what `Init` set. -/
theorem C9_init_frame (rold : RHCCRegistry) (config : RegistryConfig)
    (log : Nat) (cs : List Call) :
    (Init rold config log).1.config = config ∧
    (Init rold config log).1.log = log ∧
    (Init rold config log).2 = none ∧
    runCalls (Init rold config log).1 cs = (Init rold config log).1 :=
  ⟨rfl, rfl, rfl, runCalls_id cs _⟩

/-- C10: on a successful `LoadSpecs` run, the returned sequence consists
exactly of the Specs the per-image step produced, in the order of the
search results that produced them; hence every element is a non-nil
pointer and the sequence is at most as long as the results list. -/
theorem C10_output_invariants (r : RHCCRegistry) (env : Env)
    (resp : ImageResponse)
    (hsearch : (LoadImages r env "\"*-apb\"").1 = (resp, none))
    (specs : List (Option Spec)) (n : Int)
    (hok : (LoadSpecs r env).result = .ok (specs, n, none)) :
    specs = resp.Results.filterMap (producedSpec r env) ∧
    (∀ x ∈ specs, x ≠ none) ∧
    specs.length ≤ resp.Results.length := by
  have h := loadSpecs_result_of_ok r env resp hsearch
  rw [hok] at h
  cases hsl : specLoop r env resp.Results [] with
  | crash => rw [hsl] at h; cases h
  | ok specs2 =>
    rw [hsl] at h
    simp only [GoResult.ok.injEq, Prod.mk.injEq] at h
    obtain ⟨hsp, -, -⟩ := h
    have he := specLoop_ok_eq r env resp.Results [] specs2 hsl
    simp only [List.nil_append] at he
    subst hsp
    subst he
    refine ⟨rfl, ?_, List.length_filterMap_le _ _⟩
    intro x hx
    rcases List.mem_filterMap.mp hx with ⟨oimg, -, hpx⟩
    exact producedSpec_ne_none r env oimg x hpx

theorem C10_output_invariants_witness :
    ([some specDemo] : List (Option Spec)) =
      List.filterMap (producedSpec regDemo envDemo) [some imgDemo] ∧
    (∀ x ∈ ([some specDemo] : List (Option Spec)), x ≠ none) ∧
    ([some specDemo] : List (Option Spec)).length ≤
      [some imgDemo].length :=
  C10_output_invariants regDemo envDemo ⟨5, "\"*-apb\"", [some imgDemo]⟩
    (by decide) [some specDemo] 5 (by decide)

end RHCC
